import Mathlib

/-!
Verification of the gold read-write Linked Data server (package `gold`).

This file gives a shallow embedding of the parts of the source that the
claims concern:

* `pathInfo` — URI → PathInfo resolution (server.go);
* `ifMatch` / `ifNoneMatch` — HTTP precondition predicates (server.go);
* `wacAllow` — the Web Access Control walk `(*WAC).allow` (acl.go);
* `handle` — the request pipeline of `(*Server).handle` for the
  Content-Type gate and the PATCH / POST / PUT branches (server.go).

The filesystem is modelled as a map from on-disk path strings to nodes;
out-of-scope collaborators (RDF graph engine serializations, magic mime
detection, ETag derivation, UUIDs, secure-token minting, remote graph
fetching) are modelled as explicit function parameters, as the spec
declares them replaceable collaborators.  Go string/path library
functions are re-implemented structurally on `List Char` so that all
definitions evaluate inside the kernel.
-/

namespace Gold

/-! ### Go string and path library functions -/

/-- Splits a character list at every occurrence of `sep`; models
`strings.Split` with a one-character separator (`Split("",sep) = [""]`). -/
def splitChar (sep : Char) : List Char → List (List Char)
  | [] => [[]]
  | c :: cs =>
    let r := splitChar sep cs
    if c = sep then [] :: r
    else
      match r with
      | h :: t => (c :: h) :: t
      | [] => [[c]]

/-- Models `strings.Split s sep` (single-character separator). -/
def goSplit (s : String) (sep : Char) : List String :=
  (splitChar sep s.data).map (fun l => ⟨l⟩)

/-- Models `strings.HasPrefix`. -/
def strStartsWith (s t : String) : Bool := decide (t.data <+: s.data)

/-- Models `strings.HasSuffix`. -/
def strEndsWith (s t : String) : Bool := decide (t.data <:+ s.data)

/-- Drops every leading occurrence of `c`. -/
def dropLeading (c : Char) : List Char → List Char
  | [] => []
  | x :: xs => if x = c then dropLeading c xs else x :: xs

/-- Drops characters satisfying `p` from the front of the list. -/
def dropWhileP (p : Char → Bool) : List Char → List Char
  | [] => []
  | x :: xs => if p x then dropWhileP p xs else x :: xs

/-- Models `strings.TrimLeft s "/"`. -/
def trimLeftSlashes (s : String) : String := ⟨dropLeading '/' s.data⟩

/-- Drops every trailing occurrence of `c`. -/
def dropTrailing (c : Char) (l : List Char) : List Char :=
  (dropLeading c l.reverse).reverse

/-- Models `strings.TrimSpace` (drop unicode whitespace from both ends). -/
def trimSpace (s : String) : String :=
  ⟨((dropWhileP Char.isWhitespace ((dropWhileP Char.isWhitespace s.data).reverse)).reverse)⟩

/-- Takes characters up to (excluding) the first occurrence of `c`. -/
def takeUntil (c : Char) : List Char → List Char
  | [] => []
  | x :: xs => if x = c then [] else x :: takeUntil c xs

/-- Models `strings.Split(s, ";")[0]` and friends: the part of `s`
before the first occurrence of `c`. -/
def headSplit (c : Char) (s : String) : String := ⟨takeUntil c s.data⟩

/-- Models the Go slice `s[:n]` (ASCII contents in all uses here). -/
def strTake (s : String) (n : Nat) : String := ⟨s.data.take n⟩

/-- Slug sanitization from the POST branch of `Server.handle`:
strip leading `/` (when present), then trailing `/` (when present). -/
def sanitizeSlug (s : String) : String :=
  let s1 := if strStartsWith s "/" then (⟨dropLeading '/' s.data⟩ : String) else s
  if strEndsWith s1 "/" then ⟨dropTrailing '/' s1.data⟩ else s1

/-- Stack step of `path.Clean`: skip empty and `.` elements, let `..`
pop the previous element (kept literally at the front of a relative
path, dropped at the root of a rooted path). -/
def cleanStack (rooted : Bool) : List (List Char) → List (List Char) → List (List Char)
  | stack, [] => stack.reverse
  | stack, c :: cs =>
    if c = [] ∨ c = ['.'] then cleanStack rooted stack cs
    else if c = ['.', '.'] then
      match stack with
      | [] => if rooted then cleanStack rooted [] cs else cleanStack rooted [['.', '.']] cs
      | top :: rest =>
        if top = ['.', '.'] then cleanStack rooted (c :: stack) cs
        else cleanStack rooted rest cs
    else cleanStack rooted (c :: stack) cs

/-- Joins path elements with `/`. -/
def joinSlash : List (List Char) → List Char
  | [] => []
  | [x] => x
  | x :: xs => x ++ '/' :: joinSlash xs

/-- Models `path.Clean` / `filepath.Clean` for slash-separated paths
(no Windows volume names). -/
def pathClean (s : String) : String :=
  let rooted := strStartsWith s "/"
  let elems := cleanStack rooted [] (splitChar '/' s.data)
  let core := joinSlash elems
  if rooted then ⟨'/' :: core⟩
  else if core = [] then "." else ⟨core⟩

/-- Returns the prefix of the list up to and including its last `/`. -/
def lastSlashSplit : List Char → Option (List Char)
  | [] => none
  | c :: cs =>
    match lastSlashSplit cs with
    | some r => some (c :: r)
    | none => if c = '/' then some [c] else none

/-- Models `filepath.Dir` (and `path.Dir`, identical on slash paths):
`Clean` of everything up to and including the last separator, `.` when
there is none. -/
def filepathDir (s : String) : String :=
  match lastSlashSplit s.data with
  | none => "."
  | some pre => pathClean ⟨pre⟩

/-- Splits a list at its last `:` (prefix, suffix). -/
def lastColonSplit : List Char → Option (List Char × List Char)
  | [] => none
  | c :: cs =>
    match lastColonSplit cs with
    | some (a, b) => some (c :: a, b)
    | none => if c = ':' then some ([], cs) else none

/-- Models `net.SplitHostPort` for `host:port` strings: both results are
empty (the error case) when no colon is present.  IPv6 bracket handling
is outside the inputs this server ever produces. -/
def splitHostPort (h : String) : String × String :=
  match lastColonSplit h.data with
  | some (a, b) => (⟨a⟩, ⟨b⟩)
  | none => ("", "")

/-- Finds the first occurrence of `pat` and returns (before, after). -/
def breakOnSub (pat : List Char) : List Char → Option (List Char × List Char)
  | [] => if pat = [] then some ([], []) else none
  | c :: cs =>
    if pat.isPrefixOf (c :: cs) then some ([], (c :: cs).drop pat.length)
    else
      match breakOnSub pat cs with
      | some (pre, post) => some (c :: pre, post)
      | none => none

/-- Parsed URL: scheme, host (with optional port), path (with its
leading slash). -/
structure ParsedURL where
  scheme : String
  host : String
  path : String
deriving DecidableEq

/-- Models `url.Parse` for the absolute `scheme://host/path` URIs this
server passes around (percent-decoding and query strings are outside
the claims).  Without `://` the whole string is taken as the path,
as `url.Parse` does for scheme-less relative references. -/
def urlParse (s : String) : ParsedURL :=
  match breakOnSub ("://".data) s.data with
  | none => ⟨"", "", s⟩
  | some (sch, rest) =>
    let host := takeUntil '/' rest
    let path := rest.drop host.length
    ⟨⟨sch⟩, ⟨host⟩, ⟨path⟩⟩

/-- Reassembles the URL, as `url.URL.String()` does after the path was
rewritten: a non-empty path that does not start with `/` gets one
inserted after the host. -/
def urlString (u : ParsedURL) : String :=
  u.scheme ++ "://" ++ u.host ++
    (if u.path = "" then ""
     else if strStartsWith u.path "/" then u.path else "/" ++ u.path)

/-! ### Filesystem model -/

/-- A filesystem node: directory flag and (for files) contents. -/
structure FNode where
  isDir : Bool
  content : String
deriving DecidableEq

/-- The filesystem: a map from on-disk path strings to nodes.  `none`
plays the role of `os.IsNotExist`. -/
abbrev FS := String → Option FNode

/-- Models `os.OpenFile(path, O_CREATE|O_TRUNC|O_WRONLY)` followed by
writing `content` (parent directories are not tracked). -/
def fsWrite (fs : FS) (path content : String) : FS :=
  fun q => if q = path then some ⟨false, content⟩ else fs q

/-- Models `os.MkdirAll`: no-op on an existing directory, error (`none`)
on an existing non-directory, otherwise creates the directory (implicit
parents are not tracked; no claim inspects them). -/
def fsMkdirAll (fs : FS) (path : String) : Option FS :=
  match fs path with
  | some n => if n.isDir then some fs else none
  | none => some (fun q => if q = path then some ⟨true, ""⟩ else fs q)

/-! ### pathInfo (server.go) -/

/-- The `.acl` shadow suffix (`ACLSuffix` constant). -/
def ACLSuffix : String := ".acl"

/-- The `.meta` shadow suffix (`METASuffix` constant). -/
def METASuffix : String := ".meta"

/-- The system namespace prefix (`SystemPrefix` constant). -/
def SystemPrefix : String := ".system"

/-- Server configuration fields consumed by the embedded code. -/
structure ServerConfig where
  DataRoot : String
  Vhosts : Bool
deriving DecidableEq

/-- The result of `Server.pathInfo` (struct `pathInfo` in the source). -/
structure PathInfo where
  Obj : ParsedURL
  URI : String
  Base : String
  Path : String
  Root : String
  File : String
  FileType : String
  AclURI : String
  AclFile : String
  MetaURI : String
  MetaFile : String
  Exists : Bool
deriving DecidableEq

/-- Vhost host in `pathInfo`: rejoin the `net.SplitHostPort` pieces,
falling back to the raw host on a split error. -/
def vhostHost (h : String) : String :=
  let hp := splitHostPort h
  let host0 := if hp.1 = "" then h else hp.1
  if hp.2 ≠ "" then host0 ++ ":" ++ hp.2 else host0

/-- The storage root `res.Root` of `pathInfo`. -/
def rootOf (cfg : ServerConfig) (p : ParsedURL) : String :=
  if cfg.Vhosts then cfg.DataRoot ++ vhostHost p.host ++ "/" else cfg.DataRoot

/-- The base URI `res.Base` of `pathInfo`. -/
def baseOf (cfg : ServerConfig) (p : ParsedURL) : String :=
  if cfg.Vhosts then p.scheme ++ "://" ++ vhostHost p.host
  else p.scheme ++ "://" ++ p.host

/-- Leading-slash strip of `pathInfo`. -/
def stripSlashes (s : String) : String :=
  if strStartsWith s "/" then trimLeftSlashes s else s

/-- Relative-path fixup of `pathInfo`: append the missing trailing slash
for existing directories whose path is longer than one byte. -/
def resolveRel (stat : Option FNode) (rel0 : String) : String :=
  match stat with
  | none => rel0
  | some st =>
    if st.isDir && !strEndsWith rel0 "/" && decide (rel0.utf8ByteSize > 1)
    then rel0 ++ "/" else rel0

/-- The canonical URI `res.URI` of `pathInfo`: `p.String()`, with a `/`
appended when the relative path is empty. -/
def uriOf (p : ParsedURL) (rel : String) : String :=
  let pStr := urlString ⟨p.scheme, p.host, rel⟩
  if rel = "" then pStr ++ "/" else pStr

/-- The on-disk file `res.File` of `pathInfo`. -/
def fileOf (cfg : ServerConfig) (root rel : String) : String :=
  if cfg.Vhosts then root ++ rel
  else if cfg.DataRoot ≠ "" then cfg.DataRoot ++ rel else rel

/-- The shadow-locator suffix dispatch that ends `pathInfo` (`ACLSuffix`
and `METASuffix` cases, then the generic one). -/
def mkShadow (obj : ParsedURL) (uri base rel root file fileType : String)
    (ex : Bool) : PathInfo :=
  if strEndsWith rel ACLSuffix then
    ⟨obj, uri, base, rel, root, file, fileType, uri, file, uri, file, ex⟩
  else if strEndsWith rel METASuffix then
    ⟨obj, uri, base, rel, root, file, fileType,
      uri ++ ACLSuffix, file ++ ACLSuffix, uri, file, ex⟩
  else
    ⟨obj, uri, base, rel, root, file, fileType,
      uri ++ ACLSuffix, file ++ ACLSuffix, uri ++ METASuffix, file ++ METASuffix, ex⟩

/-- Models `(*Server).pathInfo`.  `fs` stands for the filesystem seen
through `os.Stat` (any stat failure is treated as not-exists, matching
`os.IsNotExist` on the only errors that arise here), and `ftype` for the
`magic.TypeByFile` collaborator, abstracted as a function of the on-disk
path. -/
def pathInfo (cfg : ServerConfig) (fs : FS) (ftype : String → String)
    (path : String) : Except String PathInfo :=
  if path = "" then .error "missing resource path"
  else
    let p := urlParse path
    let root := rootOf cfg p
    let base := baseOf cfg p
    let rel0 := stripSlashes p.path
    let stat := fs (root ++ rel0)
    let rel := resolveRel stat rel0
    let fileType :=
      match stat with
      | none => ""
      | some _ => ftype (root ++ rel)
    let uri := uriOf p rel
    let file := fileOf cfg root rel
    .ok (mkShadow ⟨p.scheme, p.host, rel⟩ uri base rel root file fileType stat.isSome)

/-- The on-disk key `res.Root + p.Path` that `pathInfo` stats, computed
from the same inputs (used to state filesystem hypotheses). -/
def statKey (cfg : ServerConfig) (path : String) : String :=
  rootOf cfg (urlParse path) ++ stripSlashes (urlParse path).path

/-- The leading-slash-stripped path component of the request URI. -/
def strippedPath (path : String) : String :=
  stripSlashes (urlParse path).path

/-! ### Small string lemmas -/

theorem strEndsWith_iff {s t : String} : strEndsWith s t = true ↔ t.data <:+ s.data := by
  simp [strEndsWith]

theorem data_append (a b : String) : (a ++ b).data = a.data ++ b.data := rfl

theorem strEndsWith_append_self (a t : String) : strEndsWith (a ++ t) t = true := by
  rw [strEndsWith_iff, data_append]
  exact List.suffix_append _ _

theorem strEndsWith_append_of (x p : String) (hp : strEndsWith p "/" = true) :
    strEndsWith (x ++ p) "/" = true := by
  rw [strEndsWith_iff] at hp ⊢
  rw [data_append]
  exact hp.trans (List.suffix_append _ _)

theorem append_slash_ne_nil (s : String) : s ++ "/" ≠ "" := by
  intro h
  have : (s ++ "/").data = [] := by simp [h]
  rw [data_append] at this
  simp at this

theorem mkShadow_Path (obj : ParsedURL) (uri base rel root file ft : String) (ex : Bool) :
    (mkShadow obj uri base rel root file ft ex).Path = rel := by
  unfold mkShadow
  split
  · rfl
  · split <;> rfl

theorem mkShadow_URI (obj : ParsedURL) (uri base rel root file ft : String) (ex : Bool) :
    (mkShadow obj uri base rel root file ft ex).URI = uri := by
  unfold mkShadow
  split
  · rfl
  · split <;> rfl

theorem mkShadow_prop (obj : ParsedURL) (uri base rel root file ft : String) (ex : Bool) :
    (strEndsWith (mkShadow obj uri base rel root file ft ex).Path ACLSuffix = true →
      (mkShadow obj uri base rel root file ft ex).AclURI =
        (mkShadow obj uri base rel root file ft ex).URI ∧
      (mkShadow obj uri base rel root file ft ex).AclFile =
        (mkShadow obj uri base rel root file ft ex).File ∧
      (mkShadow obj uri base rel root file ft ex).MetaURI =
        (mkShadow obj uri base rel root file ft ex).URI ∧
      (mkShadow obj uri base rel root file ft ex).MetaFile =
        (mkShadow obj uri base rel root file ft ex).File) ∧
    (strEndsWith (mkShadow obj uri base rel root file ft ex).Path ACLSuffix = false →
      strEndsWith (mkShadow obj uri base rel root file ft ex).Path METASuffix = true →
      (mkShadow obj uri base rel root file ft ex).AclURI =
        (mkShadow obj uri base rel root file ft ex).URI ++ ACLSuffix ∧
      (mkShadow obj uri base rel root file ft ex).AclFile =
        (mkShadow obj uri base rel root file ft ex).File ++ ACLSuffix ∧
      (mkShadow obj uri base rel root file ft ex).MetaURI =
        (mkShadow obj uri base rel root file ft ex).URI ∧
      (mkShadow obj uri base rel root file ft ex).MetaFile =
        (mkShadow obj uri base rel root file ft ex).File) ∧
    (strEndsWith (mkShadow obj uri base rel root file ft ex).Path ACLSuffix = false →
      strEndsWith (mkShadow obj uri base rel root file ft ex).Path METASuffix = false →
      (mkShadow obj uri base rel root file ft ex).AclURI =
        (mkShadow obj uri base rel root file ft ex).URI ++ ACLSuffix ∧
      (mkShadow obj uri base rel root file ft ex).AclFile =
        (mkShadow obj uri base rel root file ft ex).File ++ ACLSuffix ∧
      (mkShadow obj uri base rel root file ft ex).MetaURI =
        (mkShadow obj uri base rel root file ft ex).URI ++ METASuffix ∧
      (mkShadow obj uri base rel root file ft ex).MetaFile =
        (mkShadow obj uri base rel root file ft ex).File ++ METASuffix) := by
  unfold mkShadow
  split
  next hA =>
    dsimp only
    exact ⟨fun _ => ⟨rfl, rfl, rfl, rfl⟩,
      fun hF _ => absurd hA (by simp [hF]),
      fun hF _ => absurd hA (by simp [hF])⟩
  next hA =>
    split
    next hB =>
      dsimp only
      exact ⟨fun hT => absurd hT hA,
        fun _ _ => ⟨rfl, rfl, rfl, rfl⟩,
        fun _ hF => absurd hB (by simp [hF])⟩
    next hB =>
      dsimp only
      exact ⟨fun hT => absurd hT hA,
        fun _ hT => absurd hT hB,
        fun _ _ => ⟨rfl, rfl, rfl, rfl⟩⟩

/-! ### Claims C5 and C6 (pathInfo shadow locators and directory slash) -/

/-- Claim C5: `pathInfo` sets the shadow locators by suffix dispatch on
the resolved relative path: a path ending in `.acl` is its own ACL and
meta; a path ending in `.meta` has ACL `self + ".acl"` and is its own
meta; any other path has ACL `self + ".acl"` and meta `self + ".meta"`,
and identically for the on-disk `AclFile`/`MetaFile`. -/
theorem pathInfo_shadow_locators (cfg : ServerConfig) (fs : FS)
    (ftype : String → String) (path : String) (r : PathInfo)
    (h : pathInfo cfg fs ftype path = .ok r) :
    (strEndsWith r.Path ACLSuffix = true →
      r.AclURI = r.URI ∧ r.AclFile = r.File ∧ r.MetaURI = r.URI ∧ r.MetaFile = r.File) ∧
    (strEndsWith r.Path ACLSuffix = false → strEndsWith r.Path METASuffix = true →
      r.AclURI = r.URI ++ ACLSuffix ∧ r.AclFile = r.File ++ ACLSuffix ∧
      r.MetaURI = r.URI ∧ r.MetaFile = r.File) ∧
    (strEndsWith r.Path ACLSuffix = false → strEndsWith r.Path METASuffix = false →
      r.AclURI = r.URI ++ ACLSuffix ∧ r.AclFile = r.File ++ ACLSuffix ∧
      r.MetaURI = r.URI ++ METASuffix ∧ r.MetaFile = r.File ++ METASuffix) := by
  unfold pathInfo at h
  split at h
  · exact absurd h (by simp)
  · simp only [Except.ok.injEq] at h
    subst h
    exact mkShadow_prop _ _ _ _ _ _ _ _

/-- Witness for C5 at a concrete input: an `.acl` URI is its own shadow. -/
theorem pathInfo_shadow_locators_witness :
    ∃ r, pathInfo ⟨"data/", false⟩ (fun _ => none) (fun _ => "") "http://h/x.acl" = .ok r ∧
      (r.AclURI = r.URI ∧ r.AclFile = r.File ∧ r.MetaURI = r.URI ∧ r.MetaFile = r.File) := by
  have hr : pathInfo ⟨"data/", false⟩ (fun _ => none) (fun _ => "") "http://h/x.acl" =
      .ok ⟨⟨"http", "h", "x.acl"⟩, "http://h/x.acl", "http://h", "x.acl", "data/",
        "data/x.acl", "", "http://h/x.acl", "data/x.acl", "http://h/x.acl", "data/x.acl",
        false⟩ := by
    rfl
  exact ⟨_, hr, (pathInfo_shadow_locators _ _ _ _ _ hr).1 (by decide)⟩

/-- Counterexample for claim C6: `pathInfo` only appends the directory
slash when the stripped path is longer than one byte
(`len(p.Path) > 1` in the source); a single-character directory name
keeps its slash-less path and URI. -/
theorem pathInfo_dir_slash_cex :
    (((fun q => if q = "data/d" then some (⟨true, ""⟩ : FNode) else none) : FS)
        (statKey ⟨"data/", false⟩ "http://h/d")).map FNode.isDir = some true ∧
    strEndsWith (strippedPath "http://h/d") "/" = false ∧
    ((pathInfo ⟨"data/", false⟩
        (fun q => if q = "data/d" then some ⟨true, ""⟩ else none)
        (fun _ => "") "http://h/d").toOption.map
      (fun r => strEndsWith r.Path "/" || strEndsWith r.URI "/")) = some false := by
  decide

/-- Claim C6 (amended): for every URI whose leading-slash-stripped path
names an existing directory, lacks a trailing `/`, and is more than one
byte long, `pathInfo` appends a trailing `/`, so the resulting
`PathInfo.Path` and `PathInfo.URI` end in `/`. -/
theorem pathInfo_dir_slash (cfg : ServerConfig) (fs : FS)
    (ftype : String → String) (path : String) (r : PathInfo)
    (h : pathInfo cfg fs ftype path = .ok r)
    (hdir : (fs (statKey cfg path)).map FNode.isDir = some true)
    (hslash : strEndsWith (strippedPath path) "/" = false)
    (hlen : (strippedPath path).utf8ByteSize > 1) :
    strEndsWith r.Path "/" = true ∧ strEndsWith r.URI "/" = true := by
  unfold pathInfo at h
  split at h
  · exact absurd h (by simp)
  · simp only [Except.ok.injEq] at h
    subst h
    rw [mkShadow_Path, mkShadow_URI]
    simp only [statKey] at hdir
    simp only [strippedPath] at hslash hlen
    obtain ⟨st, hst, hstd⟩ := Option.map_eq_some'.mp hdir
    rw [hst]
    have hresolve : resolveRel (some st) (stripSlashes (urlParse path).path) =
        stripSlashes (urlParse path).path ++ "/" := by
      simp only [resolveRel]
      rw [hstd, hslash]
      simp [decide_eq_true hlen]
    rw [hresolve]
    refine ⟨strEndsWith_append_self _ _, ?_⟩
    unfold uriOf
    simp only []
    rw [if_neg (append_slash_ne_nil _)]
    unfold urlString
    dsimp only
    rw [if_neg (append_slash_ne_nil _)]
    refine strEndsWith_append_of _ _ ?_
    split
    · exact strEndsWith_append_self _ _
    · exact strEndsWith_append_of _ _ (strEndsWith_append_self _ _)

/-- Witness for the amended C6 at a concrete input. -/
theorem pathInfo_dir_slash_witness :
    ∃ r, pathInfo ⟨"data/", false⟩
        (fun q => if q = "data/dir" then some ⟨true, ""⟩ else none)
        (fun _ => "") "http://h/dir" = .ok r ∧
      (strEndsWith r.Path "/" = true ∧ strEndsWith r.URI "/" = true) := by
  have hr : pathInfo ⟨"data/", false⟩
      (fun q => if q = "data/dir" then some ⟨true, ""⟩ else none)
      (fun _ => "") "http://h/dir" =
      .ok ⟨⟨"http", "h", "dir/"⟩, "http://h/dir/", "http://h", "dir/", "data/",
        "data/dir/", "", "http://h/dir/.acl", "data/dir/.acl", "http://h/dir/.meta",
        "data/dir/.meta", true⟩ := by
    rfl
  exact ⟨_, hr, pathInfo_dir_slash _ _ _ _ _ hr (by decide) (by decide) (by decide)⟩

/-! ### Claim C8 (If-Match / If-None-Match preconditions) -/

/-- Models `httpRequest.ifMatch`: `hdr` is the raw value of the
`If-Match` header (`""` when absent, as `Header.Get` returns), `etag`
the current quoted ETag passed by the handlers. -/
def ifMatch (hdr etag : String) : Bool :=
  if etag = "" then true
  else if hdr = "" then true
  else (goSplit hdr ',').any (fun v => trimSpace v == "*" || trimSpace v == etag)

/-- Models `httpRequest.ifNoneMatch` (same conventions as `ifMatch`). -/
def ifNoneMatch (hdr etag : String) : Bool :=
  if etag = "" then true
  else if hdr = "" then true
  else (goSplit hdr ',').any (fun v => trimSpace v ≠ "*" && trimSpace v ≠ etag)

/-- Counterexample for claim C8: when the current ETag is the empty
string, `ifMatch` is satisfied although the present header names no
token equal to `*` or to the ETag, contradicting the claimed
iff-characterization quantified over every current ETag. -/
theorem ifMatch_empty_etag_cex :
    ifMatch "x" "" = true ∧
    (goSplit "x" ',').all (fun v => trimSpace v ≠ "*" && trimSpace v ≠ "") = true := by
  decide

/-- Claim C8 (amended): for every non-empty current ETag, `If-Match` is
satisfied iff the header is absent or one of its comma-separated
whitespace-trimmed tokens equals `*` or the current ETag, and
`If-None-Match` is satisfied iff the header is absent or it contains a
token that differs from both the current ETag and `*`.  (Both functions
short-circuit to satisfied when the ETag argument is empty.) -/
theorem ifMatch_ifNoneMatch_characterization (hdr etag : String) (hne : etag ≠ "") :
    (ifMatch hdr etag = true ↔
      hdr = "" ∨ ∃ v ∈ goSplit hdr ',', trimSpace v = "*" ∨ trimSpace v = etag) ∧
    (ifNoneMatch hdr etag = true ↔
      hdr = "" ∨ ∃ v ∈ goSplit hdr ',', trimSpace v ≠ "*" ∧ trimSpace v ≠ etag) := by
  unfold ifMatch ifNoneMatch
  rw [if_neg hne, if_neg hne]
  by_cases hh : hdr = ""
  · simp [hh]
  · rw [if_neg hh, if_neg hh]
    constructor
    · rw [List.any_eq_true]
      simp [hh]
    · rw [List.any_eq_true]
      simp [hh]

/-- Witness for the amended C8 at concrete inputs. -/
theorem ifMatch_ifNoneMatch_characterization_witness :
    ifMatch "\"abc\", *" "\"zzz\"" = true ∧ ifNoneMatch "\"abc\"" "\"zzz\"" = true := by
  have h1 := ifMatch_ifNoneMatch_characterization "\"abc\", *" "\"zzz\"" (by decide)
  have h2 := ifMatch_ifNoneMatch_characterization "\"abc\"" "\"zzz\"" (by decide)
  exact ⟨h1.1.mpr (.inr ⟨" *", by decide, .inl (by decide)⟩),
         h2.2.mpr (.inr ⟨"\"abc\"", by decide, by decide, by decide⟩)⟩

/-! ### RDF graph model (out-of-scope collaborator contract: `Graph`
with `All`, `One` and term equality) -/

/-- An RDF term: a resource (URI) or a literal.  Literal serialization
detail is irrelevant to the ACL logic; only its distinctness from
bracketed URIs matters. -/
inductive Term where
  | uri (s : String)
  | lit (s : String)
deriving DecidableEq

/-- The `Term.String()` serialization: URIs in angle brackets, literals
quoted. -/
def termString : Term → String
  | .uri s => "<" ++ s ++ ">"
  | .lit s => "\"" ++ s ++ "\""

/-- An RDF triple. -/
structure Triple where
  subject : Term
  predicate : Term
  object : Term
deriving DecidableEq

/-- An RDF graph, as the list of its triples. -/
abbrev Graph := List Triple

/-- Pattern match of `Graph.All`: `none` is the nil wildcard. -/
def matchT (pat : Option Term) (t : Term) : Bool :=
  match pat with
  | none => true
  | some x => x == t

/-- Models `Graph.All(s, p, o)`: every triple matching the pattern. -/
def graphAll (g : Graph) (s p o : Option Term) : List Triple :=
  g.filter (fun t => matchT s t.subject && matchT p t.predicate && matchT o t.object)

/-- Models `Graph.One(s, p, o)`: the first triple matching the pattern. -/
def graphOne (g : Graph) (s p o : Option Term) : Option Triple :=
  (graphAll g s p o).head?

/-- Modelled from the spec: the `acl:` vocabulary namespace (the `ns`
vocabulary table lives in a file that is not under `src/`; the base URI
is the standard WAC namespace named in the spec). -/
def aclNS (s : String) : Term := .uri ("http://www.w3.org/ns/auth/acl#" ++ s)

/-- Modelled from the spec: the `foaf:` namespace. -/
def foafNS (s : String) : Term := .uri ("http://xmlns.com/foaf/0.1/" ++ s)

/-- Modelled from the spec: the `rdf:` namespace. -/
def rdfNS (s : String) : Term := .uri ("http://www.w3.org/1999/02/22-rdf-syntax-ns#" ++ s)

/-- Modelled from the spec: `brack` wraps a value in angle brackets
(used for the "bracketed match" of the `Origin` header); values already
bracketed are kept. -/
def brack (s : String) : String :=
  if strStartsWith s "<" then s else "<" ++ s ++ ">"

/-- Modelled from the spec: `debrack` strips surrounding angle
brackets from a serialized URI term. -/
def debrack (s : String) : String :=
  if strStartsWith s "<" && strEndsWith s ">" then ⟨(s.data.drop 1).dropLast⟩ else s

/-! ### WAC.allow (acl.go) -/

/-- Environment of the ACL engine: server config, filesystem, mime
detection, the ACL-file reader (`NewGraph` + `ReadFile`, yielding the
empty graph for missing or unparseable files), the remote graph fetch
(`LoadURI`, for FOAF groups), and the secure-token minter
(`NewSecureToken`, keyed by validity in seconds; `none` is the error
case). -/
structure WacEnv where
  cfg : ServerConfig
  fs : FS
  ftype : String → String
  readGraph : String → Graph
  webFetch : String → Graph
  mint : Nat → Option String

/-- The FOAF-group membership test of `WAC.allow`: fetch the group
graph, require `rdf:type foaf:Group` and a `foaf:member` link to the
user. -/
def groupOk (env : WacEnv) (obj : Term) (user : String) : Bool :=
  let groupURI := debrack (termString obj)
  let gg := env.webFetch groupURI
  gg.length > 0 &&
    (graphOne gg (some obj) (some (rdfNS "type")) (some (foafNS "Group"))).isSome &&
    !(graphAll gg (some obj) (some (foafNS "member")) (some (.uri user))).isEmpty

/-- The agent tests shared by both passes of `WAC.allow`: owner, agent,
`foaf:Agent` public class, or FOAF group membership. -/
def agentOk (env : WacEnv) (g : Graph) (S : Term) (user : String) : Bool :=
  !(graphAll g (some S) (some (aclNS "owner")) (some (.uri user))).isEmpty ||
  !(graphAll g (some S) (some (aclNS "agent")) (some (.uri user))).isEmpty ||
  (graphAll g (some S) (some (aclNS "agentClass")) none).any
    (fun t => t.object == foafNS "Agent" || groupOk env t.object user)

/-- Pass A of `WAC.allow`: any subject granting `acl:Control` linked to
the resource by the current access type, passing the agent tests.  No
origin filter applies to this pass. -/
def evalControl (env : WacEnv) (g : Graph) (accessType uri user : String) : Bool :=
  (graphAll g none (some (aclNS "mode")) (some (aclNS "Control"))).any
    (fun i =>
      !(graphAll g (some i.subject) (some (aclNS accessType)) (some (.uri uri))).isEmpty &&
      agentOk env g i.subject user)

/-- The origin filter of pass B: when the request `Origin` is non-empty
and the subject carries `acl:origin` triples, one of them must equal
the bracketed origin; otherwise the subject is skipped (`continue`). -/
def originOk (g : Graph) (S : Term) (origin : String) : Bool :=
  let origins := graphAll g (some S) (some (aclNS "origin")) none
  if origin ≠ "" ∧ origins ≠ [] then
    origins.any (fun o => brack origin == termString o.object)
  else true

/-- Pass B of `WAC.allow`: any subject granting the requested mode,
linked by the current access type, surviving the origin filter and
passing the agent tests. -/
def evalMode (env : WacEnv) (g : Graph) (accessType mode uri user origin : String) : Bool :=
  (graphAll g none (some (aclNS "mode")) (some (aclNS mode))).any
    (fun i =>
      (graphAll g (some i.subject) (some (aclNS accessType)) (some (.uri uri))).any
        (fun _ => originOk g i.subject origin && agentOk env g i.subject user))

/-- The decision `WAC.allow` takes at the authoritative ACL graph:
200 on any match; otherwise 401 with the `WebID-RSA` challenge header
built from a freshly minted 60-second token for anonymous users
(500 if minting fails), 403 for identified users.  The second
component is the `WWW-Authenticate` header value. -/
def aclDecide (env : WacEnv) (g : Graph) (accessType mode uri user origin : String) :
    Nat × Option String :=
  if evalControl env g accessType uri user ||
     evalMode env g accessType mode uri user origin then (200, none)
  else if user = "" then
    match env.mint 60 with
    | none => (500, none)
    | some token => (401, some ("WebID-RSA nonce=\"" ++ token ++ "\""))
  else (403, none)

/-- The loop body of `WAC.allow`: at each iteration re-resolve the
path, skip (without ascending) when the target does not exist, stop at
the first non-empty ACL graph, otherwise flip the access type to
`defaultForNew` and ascend one directory (with the source's separate
`i == 0` branch), breaking at the root.  `fuel` is the iteration count
`len(strings.Split(p.Path, "/"))` fixed up front. -/
def allowLoop (env : WacEnv) (user origin mode : String) :
    Nat → Nat → String → String → Nat × Option String
  | 0, _, _, _ => (200, none)
  | fuel + 1, i, path, accessType =>
    match pathInfo env.cfg env.fs env.ftype path with
    | .error _ => (500, none)
    | .ok p =>
      if p.Exists = false then allowLoop env user origin mode fuel (i + 1) path accessType
      else
        let aclGraph := env.readGraph p.AclFile
        if aclGraph.length > 0 then
          aclDecide env aclGraph accessType mode p.URI user origin
        else
          if i = 0 then
            let path2 :=
              (if strEndsWith p.Path "/" then
                (if filepathDir (filepathDir p.Path) = "." then p.Base
                 else p.Base ++ "/" ++ filepathDir (filepathDir p.Path))
               else p.Base ++ "/" ++ filepathDir p.Path) ++ "/"
            allowLoop env user origin mode fuel (i + 1) path2 "defaultForNew"
          else
            if p.Path = "" then (200, none)
            else
              let path2 :=
                (if filepathDir (filepathDir p.Path) = "." then p.Base
                 else p.Base ++ "/" ++ filepathDir (filepathDir p.Path)) ++ "/"
              allowLoop env user origin mode fuel (i + 1) path2 "defaultForNew"

/-- Models `(*WAC).allow(mode, path)`: resolve the path (500 on error),
then walk upward for `len(strings.Split(p.Path, "/"))` iterations; with
no authoritative ACL anywhere the resource is open (200). -/
def wacAllow (env : WacEnv) (user origin mode path : String) : Nat × Option String :=
  match pathInfo env.cfg env.fs env.ftype path with
  | .error _ => (500, none)
  | .ok p =>
    allowLoop env user origin mode (splitChar '/' p.Path.data).length 0 path "accessTo"

/-- What the upward walk of `WAC.allow` finds: the first authoritative
(non-empty) ACL graph together with the URI and access type it is
checked under, or open access, or a resolution error. -/
inductive WalkResult where
  | found (g : Graph) (uri accessType : String)
  | openAccess
  | errored
deriving DecidableEq

/-- The walk of `WAC.allow`, separated from the decision it takes at
the authoritative graph (same recursion structure as `allowLoop`). -/
def walkLoop (env : WacEnv) : Nat → Nat → String → String → WalkResult
  | 0, _, _, _ => .openAccess
  | fuel + 1, i, path, accessType =>
    match pathInfo env.cfg env.fs env.ftype path with
    | .error _ => .errored
    | .ok p =>
      if p.Exists = false then walkLoop env fuel (i + 1) path accessType
      else
        let aclGraph := env.readGraph p.AclFile
        if aclGraph.length > 0 then .found aclGraph p.URI accessType
        else
          if i = 0 then
            let path2 :=
              (if strEndsWith p.Path "/" then
                (if filepathDir (filepathDir p.Path) = "." then p.Base
                 else p.Base ++ "/" ++ filepathDir (filepathDir p.Path))
               else p.Base ++ "/" ++ filepathDir p.Path) ++ "/"
            walkLoop env fuel (i + 1) path2 "defaultForNew"
          else
            if p.Path = "" then .openAccess
            else
              let path2 :=
                (if filepathDir (filepathDir p.Path) = "." then p.Base
                 else p.Base ++ "/" ++ filepathDir (filepathDir p.Path)) ++ "/"
              walkLoop env fuel (i + 1) path2 "defaultForNew"

/-- The ACL walk from a request path. -/
def walkAuth (env : WacEnv) (path : String) : WalkResult :=
  match pathInfo env.cfg env.fs env.ftype path with
  | .error _ => .errored
  | .ok p => walkLoop env (splitChar '/' p.Path.data).length 0 path "accessTo"

/-- Decomposition: `allowLoop` is the walk followed by the decision at
the authoritative graph. -/
theorem allowLoop_eq_walkLoop (env : WacEnv) (user origin mode : String) :
    ∀ fuel i path accessType,
      allowLoop env user origin mode fuel i path accessType =
        match walkLoop env fuel i path accessType with
        | .found g uri at2 => aclDecide env g at2 mode uri user origin
        | .openAccess => (200, none)
        | .errored => (500, none) := by
  intro fuel
  induction fuel with
  | zero => intro i path at2; rfl
  | succ n ih =>
    intro i path at2
    simp only [allowLoop, walkLoop]
    cases hpi : pathInfo env.cfg env.fs env.ftype path with
    | error e => rfl
    | ok p =>
      dsimp only
      by_cases hex : p.Exists = false
      · rw [if_pos hex, if_pos hex]
        exact ih _ _ _
      · rw [if_neg hex, if_neg hex]
        by_cases hg : (env.readGraph p.AclFile).length > 0
        · rw [if_pos hg, if_pos hg]
        · rw [if_neg hg, if_neg hg]
          by_cases hi : i = 0
          · rw [if_pos hi, if_pos hi]
            exact ih _ _ _
          · rw [if_neg hi, if_neg hi]
            by_cases hp : p.Path = ""
            · rw [if_pos hp, if_pos hp]
            · rw [if_neg hp, if_neg hp]
              exact ih _ _ _

/-- Decomposition at the top level: `wacAllow` is determined by the
walk result. -/
theorem wacAllow_eq_walk (env : WacEnv) (user origin mode path : String) :
    wacAllow env user origin mode path =
      match walkAuth env path with
      | .found g uri at2 => aclDecide env g at2 mode uri user origin
      | .openAccess => (200, none)
      | .errored => (500, none) := by
  unfold wacAllow walkAuth
  cases hpi : pathInfo env.cfg env.fs env.ftype path with
  | error e => rfl
  | ok p => exact allowLoop_eq_walkLoop env user origin mode _ 0 path "accessTo"

/-! ### Helper lemmas for the ACL evaluation -/

theorem matchT_none (t : Term) : matchT none t = true := rfl

theorem matchT_self (t : Term) : matchT (some t) t = true := by simp [matchT]

theorem mem_graphAll {g : Graph} {t : Triple} {s p o : Option Term}
    (ht : t ∈ g) (hs : matchT s t.subject = true) (hp : matchT p t.predicate = true)
    (ho : matchT o t.object = true) : t ∈ graphAll g s p o := by
  unfold graphAll
  rw [List.mem_filter]
  exact ⟨ht, by rw [hs, hp, ho]; rfl⟩

theorem isEmpty_false_of_mem {α : Type _} {l : List α} {a : α} (h : a ∈ l) :
    l.isEmpty = false := by
  cases l with
  | nil => cases h
  | cons x xs => rfl

theorem any_false_iff {α : Type _} {l : List α} {p : α → Bool} :
    l.any p = false ↔ ∀ x ∈ l, p x = false := by
  rw [← Bool.not_eq_true, List.any_eq_true]
  simp

/-- The denial outcome of `aclDecide` when neither pass matches. -/
theorem aclDecide_denied (env : WacEnv) (g : Graph)
    (accessType mode uri user origin tok : String)
    (hCtrl : evalControl env g accessType uri user = false)
    (hMode : evalMode env g accessType mode uri user origin = false)
    (hMint : env.mint 60 = some tok) :
    (user = "" → aclDecide env g accessType mode uri user origin =
      (401, some ("WebID-RSA nonce=\"" ++ tok ++ "\""))) ∧
    (user ≠ "" → aclDecide env g accessType mode uri user origin = (403, none)) := by
  unfold aclDecide
  rw [hCtrl, hMode]
  rw [if_neg (by decide : ¬((false || false) = true))]
  constructor
  · intro hu
    rw [if_pos hu, hMint]
  · intro hu
    rw [if_neg hu]

/-! ### Claims C1-C4 (the WAC walk) -/

/-- Claim C1: for every mode, path, user and origin, when the ACL walk
finds an authoritative (non-empty) ACL graph and no rule in it matches
the request (neither the Control pass nor the mode pass), `WAC.allow`
returns 401 together with a `WWW-Authenticate` header of the form
`WebID-RSA nonce="<token>"`, where the token is freshly minted with a
60-second validity, when the user is empty, and 403 when the user is
non-empty. -/
theorem wac_unmatched_rules_401_403 (env : WacEnv)
    (user origin mode path tok : String) (g : Graph) (uri accessType : String)
    (hW : walkAuth env path = .found g uri accessType)
    (hCtrl : evalControl env g accessType uri user = false)
    (hMode : evalMode env g accessType mode uri user origin = false)
    (hMint : env.mint 60 = some tok) :
    (user = "" → wacAllow env user origin mode path =
      (401, some ("WebID-RSA nonce=\"" ++ tok ++ "\""))) ∧
    (user ≠ "" → wacAllow env user origin mode path = (403, none)) := by
  have heq := wacAllow_eq_walk env user origin mode path
  rw [hW] at heq
  rw [heq]
  exact aclDecide_denied env g accessType mode uri user origin tok hCtrl hMode hMint

/-- Witness for C1: a one-rule ACL graph that matches nothing yields
401 with the challenge for the anonymous user. -/
theorem wac_unmatched_rules_401_403_witness :
    wacAllow ⟨⟨"data/", false⟩,
        (fun q => if q = "data/a" then some ⟨false, ""⟩ else none),
        (fun _ => ""),
        (fun q => if q = "data/a.acl" then
          [⟨.uri "#o", aclNS "mode", aclNS "Read"⟩] else []),
        (fun _ => []), (fun _ => some "tok")⟩ "" "" "Read" "http://h/a" =
      (401, some "WebID-RSA nonce=\"tok\"") :=
  (wac_unmatched_rules_401_403 _ "" "" "Read" "http://h/a" "tok"
    [⟨.uri "#o", aclNS "mode", aclNS "Read"⟩] "http://h/a" "accessTo"
    (by decide) (by decide) (by decide) rfl).1 rfl

/-- Claim C2: when the upward walk reaches a directory `D` whose ACL
graph is authoritative for the request under access type
`defaultForNew` (the target itself having been checked with `accessTo`
at iteration 0, every ancestor with `defaultForNew`), a rule
`S acl:defaultForNew <D>` granting the requested mode to an agent
matching the rule grants that agent access to the descendant. -/
theorem wac_defaultForNew_inheritance (env : WacEnv)
    (user origin mode path : String) (g : Graph) (uri : String) (S : Term)
    (hW : walkAuth env path = .found g uri "defaultForNew")
    (hModeT : Triple.mk S (aclNS "mode") (aclNS mode) ∈ g)
    (hDefT : Triple.mk S (aclNS "defaultForNew") (Term.uri uri) ∈ g)
    (hAgentT : Triple.mk S (aclNS "agent") (Term.uri user) ∈ g)
    (hNoOrigin : graphAll g (some S) (some (aclNS "origin")) none = []) :
    wacAllow env user origin mode path = (200, none) := by
  have hMode : evalMode env g "defaultForNew" mode uri user origin = true := by
    unfold evalMode
    rw [List.any_eq_true]
    refine ⟨⟨S, aclNS "mode", aclNS mode⟩,
      mem_graphAll hModeT (matchT_none _) (matchT_self _) (matchT_self _), ?_⟩
    dsimp only
    rw [List.any_eq_true]
    refine ⟨⟨S, aclNS "defaultForNew", Term.uri uri⟩,
      mem_graphAll hDefT (matchT_self _) (matchT_self _) (matchT_self _), ?_⟩
    rw [Bool.and_eq_true]
    constructor
    · unfold originOk
      simp only [hNoOrigin]
      rw [if_neg (by simp)]
    · unfold agentOk
      have hmem : Triple.mk S (aclNS "agent") (Term.uri user) ∈
          graphAll g (some S) (some (aclNS "agent")) (some (.uri user)) :=
        mem_graphAll hAgentT (matchT_self _) (matchT_self _) (matchT_self _)
      rw [isEmpty_false_of_mem hmem]
      simp
  have heq := wacAllow_eq_walk env user origin mode path
  rw [hW] at heq
  rw [heq]
  dsimp only
  unfold aclDecide
  rw [hMode]
  simp

/-- Witness for C2: `/x/.acl` carries `defaultForNew </x/>` for an
agent; the agent is allowed on the descendant `/x/y`, whose own ACL is
empty. -/
theorem wac_defaultForNew_inheritance_witness :
    wacAllow ⟨⟨"data/", false⟩,
        (fun q => if q = "data/x/y" then some ⟨false, ""⟩
          else if q = "data/x/" then some ⟨true, ""⟩ else none),
        (fun _ => ""),
        (fun q => if q = "data/x/.acl" then
          [⟨.uri "#own", aclNS "mode", aclNS "Read"⟩,
           ⟨.uri "#own", aclNS "defaultForNew", .uri "http://h/x/"⟩,
           ⟨.uri "#own", aclNS "agent", .uri "http://u/card#me"⟩] else []),
        (fun _ => []), (fun _ => some "tok")⟩
      "http://u/card#me" "" "Read" "http://h/x/y" = (200, none) :=
  wac_defaultForNew_inheritance _ "http://u/card#me" "" "Read" "http://h/x/y"
    [⟨.uri "#own", aclNS "mode", aclNS "Read"⟩,
     ⟨.uri "#own", aclNS "defaultForNew", .uri "http://h/x/"⟩,
     ⟨.uri "#own", aclNS "agent", .uri "http://u/card#me"⟩]
    "http://h/x/" (.uri "#own")
    (by decide) (by decide) (by decide) (by decide) (by decide)

/-- Claim C3: with a non-empty request Origin, if every mode rule that
links to the resource carries at least one `acl:origin` triple and none
of them serializes to the bracketed origin, the mode pass matches
nothing, and (with no Control-pass grant either) the request falls
through to 401 for the anonymous user and 403 otherwise. -/
theorem wac_origin_confinement (env : WacEnv)
    (user origin mode path tok : String) (g : Graph) (uri accessType : String)
    (hW : walkAuth env path = .found g uri accessType)
    (hOr : origin ≠ "")
    (hCtrl : evalControl env g accessType uri user = false)
    (hRules : ∀ t ∈ graphAll g none (some (aclNS "mode")) (some (aclNS mode)),
      graphAll g (some t.subject) (some (aclNS accessType)) (some (Term.uri uri)) ≠ [] →
      graphAll g (some t.subject) (some (aclNS "origin")) none ≠ [] ∧
      ∀ o ∈ graphAll g (some t.subject) (some (aclNS "origin")) none,
        (brack origin == termString o.object) = false)
    (hMint : env.mint 60 = some tok) :
    (user = "" → wacAllow env user origin mode path =
      (401, some ("WebID-RSA nonce=\"" ++ tok ++ "\""))) ∧
    (user ≠ "" → wacAllow env user origin mode path = (403, none)) := by
  have hMode : evalMode env g accessType mode uri user origin = false := by
    unfold evalMode
    rw [any_false_iff]
    intro t ht
    rw [any_false_iff]
    intro t2 ht2
    have hne : graphAll g (some t.subject) (some (aclNS accessType))
        (some (Term.uri uri)) ≠ [] := List.ne_nil_of_mem ht2
    obtain ⟨hOrigs, hNone⟩ := hRules t ht hne
    have hor : originOk g t.subject origin = false := by
      unfold originOk
      rw [if_pos ⟨hOr, hOrigs⟩]
      rw [any_false_iff]
      exact hNone
    rw [hor]
    rfl
  have heq := wacAllow_eq_walk env user origin mode path
  rw [hW] at heq
  rw [heq]
  exact aclDecide_denied env g accessType mode uri user origin tok hCtrl hMode hMint

/-- Witness for C3: a public Read rule confined to
`origin=http://good.example` denies an anonymous request from
`http://evil.example` with a 401 challenge even though `foaf:Agent`
would match. -/
theorem wac_origin_confinement_witness :
    wacAllow ⟨⟨"data/", false⟩,
        (fun q => if q = "data/b" then some ⟨false, ""⟩ else none),
        (fun _ => ""),
        (fun q => if q = "data/b.acl" then
          [⟨.uri "#s", aclNS "mode", aclNS "Read"⟩,
           ⟨.uri "#s", aclNS "accessTo", .uri "http://h/b"⟩,
           ⟨.uri "#s", aclNS "origin", .uri "http://good.example"⟩,
           ⟨.uri "#s", aclNS "agentClass", foafNS "Agent"⟩] else []),
        (fun _ => []), (fun _ => some "tok")⟩
      "" "http://evil.example" "Read" "http://h/b" =
      (401, some "WebID-RSA nonce=\"tok\"") :=
  (wac_origin_confinement _ "" "http://evil.example" "Read" "http://h/b" "tok"
    [⟨.uri "#s", aclNS "mode", aclNS "Read"⟩,
     ⟨.uri "#s", aclNS "accessTo", .uri "http://h/b"⟩,
     ⟨.uri "#s", aclNS "origin", .uri "http://good.example"⟩,
     ⟨.uri "#s", aclNS "agentClass", foafNS "Agent"⟩]
    "http://h/b" "accessTo"
    (by decide) (by decide) (by decide) (by decide) rfl).1 rfl

/-- Claim C4 (implicit): when the requested path resolves but its file
does not exist, `WAC.allow` returns 200 unconditionally: the
non-existence branch repeats the loop without updating the walked path,
so no ancestor ACL (`defaultForNew` included) is ever consulted. -/
theorem wac_nonexistent_target_open (env : WacEnv) (user origin mode path : String)
    (p : PathInfo) (hPI : pathInfo env.cfg env.fs env.ftype path = .ok p)
    (hNE : p.Exists = false) :
    wacAllow env user origin mode path = (200, none) := by
  have haux : ∀ fuel i accessType,
      allowLoop env user origin mode fuel i path accessType = (200, none) := by
    intro fuel
    induction fuel with
    | zero => intro i a; rfl
    | succ n ih =>
      intro i a
      simp only [allowLoop]
      rw [hPI]
      dsimp only
      rw [if_pos hNE]
      exact ih _ _
  unfold wacAllow
  rw [hPI]
  exact haux _ _ _

/-- Witness for C4: a missing target under an ACL-guarded tree is
allowed with 200, whatever ACL graphs exist elsewhere. -/
theorem wac_nonexistent_target_open_witness :
    wacAllow ⟨⟨"data/", false⟩, (fun _ => none), (fun _ => ""),
        (fun _ => [⟨.uri "#s", aclNS "mode", aclNS "Control"⟩]),
        (fun _ => []), (fun _ => some "tok")⟩
      "http://u/card#me" "" "Write" "http://h/miss" = (200, none) :=
  wac_nonexistent_target_open _ "http://u/card#me" "" "Write" "http://h/miss"
    ⟨⟨"http", "h", "miss"⟩, "http://h/miss", "http://h", "miss", "data/",
      "data/miss", "", "http://h/miss.acl", "data/miss.acl", "http://h/miss.meta",
      "data/miss.meta", false⟩
    (by rfl) (by rfl)

/-! ### Server.handle (server.go): media-type gate and mutating verbs -/

/-- Modelled from the spec: the `mimeParser` table lives in a file that
is not under `src/`; the spec names request-body parsers for
`text/turtle`, `application/ld+json`, `application/sparql-update` and
`application/json`. -/
def mimeHasParser (m : String) : Bool :=
  m == "text/turtle" || m == "application/ld+json" ||
  m == "application/sparql-update" || m == "application/json"

/-- Modelled from the spec: the mutating verbs (the spec lists PATCH,
POST, PUT, DELETE, MKCOL as the verbs that must hold the file lock). -/
def mutatingMethods : List String := ["PATCH", "POST", "PUT", "DELETE", "MKCOL"]

/-- The 415 gate of `Server.handle`: the media type is the Content-Type
up to the first `;`; a non-empty type with no parser that is not
`multipart/form-data` is rejected unless the method is PUT, HEAD or
OPTIONS. -/
def unsupportedMediaType (method ctHeader : String) : Bool :=
  let dataMime := headSplit ';' ctHeader
  dataMime ≠ "" && dataMime ≠ "multipart/form-data" && !mimeHasParser dataMime &&
    method ≠ "PUT" && method ≠ "HEAD" && method ≠ "OPTIONS"

/-- The request fields the modelled pipeline consumes.  `header` is
`Header.Get` (empty string when absent); `acceptNonStar` is
`len(acceptList) > 0 && acceptList[0].SubType != "*"` (Accept parsing
is a collaborator); `linkType` is `ParseLinkHeader(..).MatchRel("type")`;
`multipartOk`/`multipartFiles` model `ParseMultipartForm`. -/
structure Request where
  method : String
  baseURI : String
  urlPath : String
  header : String → String
  acceptNonStar : Bool
  body : String
  linkType : String
  multipartOk : Bool
  multipartFiles : List (String × String)

/-- Collaborators of the mutating verbs: `etagOf` is `NewETag` (not
under `src/`: a deterministic function of the file state); `negotiated`
the outcome of `acceptList.Negotiate` (`none` = 406); `uuid` is
`newUUID` (`none` = error, 500); `patchSer`, `postSer`, `metaSer`,
`putSer` are the graph-engine read/patch/serialize compositions of the
PATCH, POST, POST-to-container and PUT write paths (`postSer`/`metaSer`
return `none` for an empty result graph, leaving only the `O_TRUNC`
creation observable); `aclCheck` is the `WAC.allow` status for
(mode, uri). -/
structure Collab where
  etagOf : FS → String → String
  negotiated : Option String
  uuid : Option String
  patchSer : String → String → String → String
  postSer : String → String → String → Option String
  metaSer : String → String → Option String
  putSer : String → String → String
  aclCheck : String → String → Nat

/-- The `AllowAppend`-then-`AllowWrite` gate shared by PATCH, POST and
PUT; `some status` is a rejection with the `AllowWrite` status. -/
def aclGate (co : Collab) (uri : String) : Option Nat :=
  let aclAppend := co.aclCheck "Append" uri
  if aclAppend > 200 then
    let aclWrite := co.aclCheck "Write" uri
    if aclWrite > 200 then some aclWrite else none
  else none

/-- The PATCH branch of `Server.handle` (file locking elided: the model
is single-request).  With no parser for the body the switch falls
through and the response status is left unset (`0`). -/
def handlePATCH (co : Collab) (req : Request) (resource : PathInfo)
    (dataMime : String) (fs : FS) : Nat × FS :=
  match aclGate co resource.URI with
  | some st => (st, fs)
  | none =>
    let etag := co.etagOf fs resource.File
    if ifMatch (req.header "If-Match") ("\"" ++ etag ++ "\"") = false then (412, fs)
    else if ifNoneMatch (req.header "If-None-Match") ("\"" ++ etag ++ "\"") = false then
      (412, fs)
    else if mimeHasParser dataMime then
      match fs resource.File with
      | some n =>
        if n.isDir then (500, fs)
        else (200, fsWrite fs resource.File (co.patchSer dataMime n.content req.body))
      | none => (200, fsWrite fs resource.File (co.patchSer dataMime "" req.body))
    else (0, fs)

/-- Models `filepath.Base` for the slash paths used here. -/
def pathBase (s : String) : String :=
  if s = "" then "."
  else
    let t := dropTrailing '/' s.data
    if t = [] then "/"
    else ⟨(t.reverse.takeWhile (fun c => c ≠ '/')).reverse⟩

/-- The multipart tail of POST: write every uploaded file under the
container (201); a multipart parse error falls through with the status
unset. -/
def postMultipart (req : Request) (resource : PathInfo) (fs : FS) : Nat × FS :=
  if req.multipartOk then
    (201, req.multipartFiles.foldl (fun acc f =>
      let newFile := if pathBase resource.Path = f.1 then resource.File
                     else resource.File ++ f.1
      fsWrite acc newFile f.2) fs)
  else (0, fs)

/-- The non-multipart write tail of POST (re-stat for 201-vs-200, then
graph merge or raw body write; `O_TRUNC` creation on a directory
fails with 500). -/
def postWrite (co : Collab) (req : Request) (resource : PathInfo)
    (dataMime : String) (isNewLDP : Bool) (fs : FS) : Nat × FS :=
  let isNew := isNewLDP || (fs resource.File).isNone
  let status : Nat := if isNew then 201 else 200
  match fs resource.File with
  | some n =>
    if n.isDir then (500, fs)
    else if mimeHasParser dataMime then
      (status, fsWrite fs resource.File ((co.postSer dataMime n.content req.body).getD ""))
    else (status, fsWrite fs resource.File req.body)
  | none =>
    if mimeHasParser dataMime then
      (status, fsWrite fs resource.File ((co.postSer dataMime "" req.body).getD ""))
    else (status, fsWrite fs resource.File req.body)

/-- The POST branch of `Server.handle`: ACL gate, preconditions, then
LDP slot allocation for an existing container (slug sanitization,
conflict check, container-vs-leaf creation), parent creation for a
missing target, and the multipart or plain write tail. -/
def handlePOST (cfg : ServerConfig) (ftype : String → String) (co : Collab)
    (req : Request) (resource : PathInfo) (dataMime : String) (fs : FS) : Nat × FS :=
  match aclGate co resource.URI with
  | some st => (st, fs)
  | none =>
    let etag := co.etagOf fs resource.File
    if ifMatch (req.header "If-Match") ("\"" ++ etag ++ "\"") = false then (412, fs)
    else if ifNoneMatch (req.header "If-None-Match") ("\"" ++ etag ++ "\"") = false then
      (412, fs)
    else
      match fs resource.File with
      | some stat0 =>
        if stat0.isDir = true ∧ dataMime ≠ "multipart/form-data" then
          match co.uuid with
          | none => (500, fs)
          | some uuidFull =>
            let uuid := strTake uuidFull 6
            let rpath := if strEndsWith resource.Path "/" then resource.Path
                         else resource.Path ++ "/"
            let chosen : Option String :=
              if req.header "Slug" ≠ "" then
                let slug := sanitizeSlug (req.header "Slug")
                if (fs (resource.File ++ slug)).isSome then none else some slug
              else some uuid
            match chosen with
            | none => (409, fs)
            | some slug =>
              let rpath2 := rpath ++ slug
              -- `len(link) > 0 && link == ldp#BasicContainer`
              if req.linkType = "http://www.w3.org/ns/ldp#BasicContainer" then
                let rpath3 := if strEndsWith rpath2 "/" then rpath2 else rpath2 ++ "/"
                match pathInfo cfg fs ftype (resource.Base ++ "/" ++ rpath3) with
                | .error _ => (500, fs)
                | .ok res2 =>
                  match fsMkdirAll fs res2.File with
                  | none => (500, fs)
                  | some fs1 =>
                    if mimeHasParser dataMime then
                      (201, fsWrite fs1 res2.MetaFile
                        ((co.metaSer dataMime req.body).getD ""))
                    else (201, fs1)
              else
                match pathInfo cfg fs ftype (resource.Base ++ "/" ++ rpath2) with
                | .error _ => (500, fs)
                | .ok res2 =>
                  -- dataMime ≠ multipart in this branch, so the tail is the plain write
                  postWrite co req res2 dataMime true fs
        else
          if dataMime = "multipart/form-data" then postMultipart req resource fs
          else postWrite co req resource dataMime false fs
      | none =>
        match fsMkdirAll fs (filepathDir resource.File) with
        | none => (500, fs)
        | some fs1 =>
          if dataMime = "multipart/form-data" then postMultipart req resource fs1
          else postWrite co req resource dataMime false fs1

/-- The PUT branch of `Server.handle`.  `isNew` stays true on this
path: `os.IsExist(err)` is false both for the nil error of a
successful stat and for the not-exists error, so PUT always answers
201 when the write goes through. -/
def handlePUT (_cfg : ServerConfig) (_ftype : String → String) (co : Collab)
    (req : Request) (resource : PathInfo) (dataMime : String) (fs : FS) : Nat × FS :=
  match aclGate co resource.URI with
  | some st => (st, fs)
  | none =>
    let etag := co.etagOf fs resource.File
    if ifMatch (req.header "If-Match") ("\"" ++ etag ++ "\"") = false then (412, fs)
    else if ifNoneMatch (req.header "If-None-Match") ("\"" ++ etag ++ "\"") = false then
      (412, fs)
    else if req.linkType = "http://www.w3.org/ns/ldp#BasicContainer" then
      match fsMkdirAll fs resource.File with
      | none => (500, fs)
      | some fs1 => (201, fs1)
    else
      match fsMkdirAll fs (filepathDir resource.File) with
      | none => (500, fs)
      | some fs1 =>
        match fs1 resource.File with
        | some n =>
          if n.isDir then (406, fs1)
          else (201, fsWrite fs1 resource.File
            (if mimeHasParser dataMime then co.putSer dataMime req.body else req.body))
        | none => (201, fsWrite fs1 resource.File
            (if mimeHasParser dataMime then co.putSer dataMime req.body else req.body))

/-- Models `Server.handle` up to and including the mutating verbs.
`none` stands for the paths outside the model: system-API requests
intercepted before the media-type gate, a failing `pathInfo` (whose
error the source discards before dereferencing the nil result), and
the read-only / WebDAV verbs — none of which can answer 415. -/
def handle (cfg : ServerConfig) (ftype : String → String) (co : Collab)
    (req : Request) (fs : FS) : Option (Nat × FS) :=
  if strStartsWith req.urlPath ("/" ++ SystemPrefix) = true ∧ req.method ≠ "OPTIONS" then
    none
  else
    match pathInfo cfg fs ftype req.baseURI with
    | .error _ => none
    | .ok resource =>
      if unsupportedMediaType req.method (req.header "Content-Type") then some (415, fs)
      else
        match (if req.acceptNonStar then co.negotiated else some "text/turtle") with
        | none => some (406, fs)
        | some _contentType =>
          match req.method with
          | "PATCH" =>
            some (handlePATCH co req resource (headSplit ';' (req.header "Content-Type")) fs)
          | "POST" =>
            some (handlePOST cfg ftype co req resource
              (headSplit ';' (req.header "Content-Type")) fs)
          | "PUT" =>
            some (handlePUT cfg ftype co req resource
              (headSplit ';' (req.header "Content-Type")) fs)
          | _ => none

/-! ### Helper lemmas for the handler pipeline -/

theorem aclGate_eq {co : Collab} {u : String} {st : Nat} (h : aclGate co u = some st) :
    st = co.aclCheck "Write" u := by
  unfold aclGate at h
  simp only [] at h
  split at h
  · split at h
    · exact (Option.some.inj h).symm
    · exact Option.noConfusion h
  · exact Option.noConfusion h

theorem quoted_ne_empty (s : String) : ("\"" ++ s ++ "\"") ≠ "" := by
  intro h
  have h2 : ("\"" ++ s ++ "\"").data = [] := by simp [h]
  rw [data_append, data_append] at h2
  simp at h2

theorem ifMatch_empty_hdr (etag : String) : ifMatch "" etag = true := by
  unfold ifMatch
  split
  · rfl
  · rw [if_pos rfl]

theorem ifNoneMatch_empty_hdr (etag : String) : ifNoneMatch "" etag = true := by
  unfold ifNoneMatch
  split
  · rfl
  · rw [if_pos rfl]

theorem ifMatch_false_of_no_token (hdr etag : String) (he : etag ≠ "") (hh : hdr ≠ "")
    (ht : ∀ v ∈ goSplit hdr ',', trimSpace v ≠ "*" ∧ trimSpace v ≠ etag) :
    ifMatch hdr etag = false := by
  unfold ifMatch
  rw [if_neg he, if_neg hh]
  rw [any_false_iff]
  intro v hv
  obtain ⟨h1, h2⟩ := ht v hv
  simp [h1, h2]

theorem handlePATCH_not_415 (co : Collab) (req : Request) (resource : PathInfo)
    (dataMime : String) (fs : FS) (hAcl : ∀ m u, co.aclCheck m u ≠ 415) :
    (handlePATCH co req resource dataMime fs).1 ≠ 415 := by
  unfold handlePATCH
  split
  next st hst =>
    have h := aclGate_eq hst
    subst h
    exact hAcl "Write" resource.URI
  next =>
    repeat' (first | split | simp only [])
    all_goals simp

theorem postWrite_not_415 (co : Collab) (req : Request) (resource : PathInfo)
    (dataMime : String) (isNewLDP : Bool) (fs : FS) :
    (postWrite co req resource dataMime isNewLDP fs).1 ≠ 415 := by
  unfold postWrite
  repeat' (first | split | simp only [])
  all_goals simp

theorem postMultipart_not_415 (req : Request) (resource : PathInfo) (fs : FS) :
    (postMultipart req resource fs).1 ≠ 415 := by
  unfold postMultipart
  split
  all_goals simp

theorem handlePOST_not_415 (cfg : ServerConfig) (ftype : String → String) (co : Collab)
    (req : Request) (resource : PathInfo) (dataMime : String) (fs : FS)
    (hAcl : ∀ m u, co.aclCheck m u ≠ 415) :
    (handlePOST cfg ftype co req resource dataMime fs).1 ≠ 415 := by
  unfold handlePOST
  split
  next st hst =>
    have h := aclGate_eq hst
    subst h
    exact hAcl "Write" resource.URI
  next =>
    repeat' (first | split | simp only [])
    all_goals first
      | exact postWrite_not_415 _ _ _ _ _ _
      | exact postMultipart_not_415 _ _ _
      | simp

theorem handlePUT_not_415 (cfg : ServerConfig) (ftype : String → String) (co : Collab)
    (req : Request) (resource : PathInfo) (dataMime : String) (fs : FS)
    (hAcl : ∀ m u, co.aclCheck m u ≠ 415) :
    (handlePUT cfg ftype co req resource dataMime fs).1 ≠ 415 := by
  unfold handlePUT
  split
  next st hst =>
    have h := aclGate_eq hst
    subst h
    exact hAcl "Write" resource.URI
  next =>
    repeat' (first | split | simp only [])
    all_goals simp

/-- The pipeline prefix: with the prologue passing, `handle` dispatches
on the method. -/
theorem handle_reaches_method (cfg : ServerConfig) (ftype : String → String)
    (co : Collab) (req : Request) (fs : FS) (resource : PathInfo) (ct : String)
    (hSys : strStartsWith req.urlPath ("/" ++ SystemPrefix) = false)
    (hPI : pathInfo cfg fs ftype req.baseURI = .ok resource)
    (hGate : unsupportedMediaType req.method (req.header "Content-Type") = false)
    (hNeg : (if req.acceptNonStar then co.negotiated else some "text/turtle") = some ct) :
    handle cfg ftype co req fs =
      match req.method with
      | "PATCH" =>
        some (handlePATCH co req resource (headSplit ';' (req.header "Content-Type")) fs)
      | "POST" =>
        some (handlePOST cfg ftype co req resource
          (headSplit ';' (req.header "Content-Type")) fs)
      | "PUT" =>
        some (handlePUT cfg ftype co req resource
          (headSplit ';' (req.header "Content-Type")) fs)
      | _ => none := by
  unfold handle
  rw [if_neg (by simp [hSys])]
  rw [hPI]
  dsimp only
  rw [if_neg (by simp [hGate])]
  rw [hNeg]

/-! ### Claim C9 (precondition soundness) -/

theorem handlePATCH_412 (co : Collab) (req : Request) (resource : PathInfo)
    (dataMime : String) (fs : FS)
    (hAcl : aclGate co resource.URI = none)
    (hIf : ifMatch (req.header "If-Match")
      ("\"" ++ co.etagOf fs resource.File ++ "\"") = false) :
    handlePATCH co req resource dataMime fs = (412, fs) := by
  unfold handlePATCH
  rw [hAcl]
  simp only []
  rw [hIf, if_pos rfl]

theorem handlePOST_412 (cfg : ServerConfig) (ftype : String → String) (co : Collab)
    (req : Request) (resource : PathInfo) (dataMime : String) (fs : FS)
    (hAcl : aclGate co resource.URI = none)
    (hIf : ifMatch (req.header "If-Match")
      ("\"" ++ co.etagOf fs resource.File ++ "\"") = false) :
    handlePOST cfg ftype co req resource dataMime fs = (412, fs) := by
  unfold handlePOST
  rw [hAcl]
  simp only []
  rw [hIf, if_pos rfl]

theorem handlePUT_412 (cfg : ServerConfig) (ftype : String → String) (co : Collab)
    (req : Request) (resource : PathInfo) (dataMime : String) (fs : FS)
    (hAcl : aclGate co resource.URI = none)
    (hIf : ifMatch (req.header "If-Match")
      ("\"" ++ co.etagOf fs resource.File ++ "\"") = false) :
    handlePUT cfg ftype co req resource dataMime fs = (412, fs) := by
  unfold handlePUT
  rw [hAcl]
  simp only []
  rw [hIf, if_pos rfl]

/-- Claim C9: a PATCH, POST or PUT whose If-Match header is present and
names only tokens different from the current quoted ETag and from `*`
is answered 412 Precondition Failed with the filesystem returned
unchanged: the precondition gate precedes every write in all three
branches. -/
theorem precondition_412_unchanged (cfg : ServerConfig) (ftype : String → String)
    (co : Collab) (req : Request) (fs : FS) (resource : PathInfo) (ct : String)
    (hM : req.method = "PATCH" ∨ req.method = "POST" ∨ req.method = "PUT")
    (hSys : strStartsWith req.urlPath ("/" ++ SystemPrefix) = false)
    (hPI : pathInfo cfg fs ftype req.baseURI = .ok resource)
    (hGate : unsupportedMediaType req.method (req.header "Content-Type") = false)
    (hNeg : (if req.acceptNonStar then co.negotiated else some "text/turtle") = some ct)
    (hAcl : aclGate co resource.URI = none)
    (hHdr : req.header "If-Match" ≠ "")
    (hTok : ∀ v ∈ goSplit (req.header "If-Match") ',',
      trimSpace v ≠ "*" ∧ trimSpace v ≠ "\"" ++ co.etagOf fs resource.File ++ "\"") :
    handle cfg ftype co req fs = some (412, fs) := by
  have hIf : ifMatch (req.header "If-Match")
      ("\"" ++ co.etagOf fs resource.File ++ "\"") = false :=
    ifMatch_false_of_no_token _ _ (quoted_ne_empty _) hHdr hTok
  rw [handle_reaches_method cfg ftype co req fs resource ct hSys hPI hGate hNeg]
  rcases hM with hm | hm | hm <;> rw [hm]
  · show some (handlePATCH co req resource
      (headSplit ';' (req.header "Content-Type")) fs) = _
    rw [handlePATCH_412 co req resource _ fs hAcl hIf]
  · show some (handlePOST cfg ftype co req resource
      (headSplit ';' (req.header "Content-Type")) fs) = _
    rw [handlePOST_412 cfg ftype co req resource _ fs hAcl hIf]
  · show some (handlePUT cfg ftype co req resource
      (headSplit ';' (req.header "Content-Type")) fs) = _
    rw [handlePUT_412 cfg ftype co req resource _ fs hAcl hIf]

/-- Witness for C9: a PATCH with `If-Match: "E0"` against a resource
whose current ETag is `E1` gets 412 and the filesystem is unchanged. -/
theorem precondition_412_unchanged_witness :
    handle ⟨"data/", false⟩ (fun _ => "")
      ⟨(fun _ _ => "E1"), none, none, (fun _ _ _ => ""), (fun _ _ _ => none),
        (fun _ _ => none), (fun _ _ => ""), (fun _ _ => 200)⟩
      ⟨"PATCH", "http://h/f", "/f",
        (fun hd => if hd = "If-Match" then "\"E0\"" else ""), false, "", "",
        false, []⟩
      (fun q => if q = "data/f" then some ⟨false, "old"⟩ else none) =
      some (412, (fun q => if q = "data/f" then some ⟨false, "old"⟩ else none)) := by
  exact precondition_412_unchanged ⟨"data/", false⟩ (fun _ => "") _ _ _
    ⟨⟨"http", "h", "f"⟩, "http://h/f", "http://h", "f", "data/", "data/f", "",
      "http://h/f.acl", "data/f.acl", "http://h/f.meta", "data/f.meta", true⟩
    "text/turtle" (.inl rfl) (by decide) (by rfl) (by decide) rfl (by rfl)
    (by decide) (by decide)

/-! ### Claim C10 (LDP slug allocation) -/

theorem handlePOST_slug_conflict (cfg : ServerConfig) (ftype : String → String)
    (co : Collab) (req : Request) (resource : PathInfo) (fs : FS) (u c : String)
    (hAcl : aclGate co resource.URI = none)
    (hNoIM : req.header "If-Match" = "")
    (hNoINM : req.header "If-None-Match" = "")
    (hDir : fs resource.File = some ⟨true, c⟩)
    (hUuid : co.uuid = some u)
    (hSlug : req.header "Slug" ≠ "")
    (hPresent : (fs (resource.File ++ sanitizeSlug (req.header "Slug"))).isSome = true) :
    handlePOST cfg ftype co req resource "" fs = (409, fs) := by
  unfold handlePOST
  rw [hAcl]
  simp only []
  rw [hNoIM, ifMatch_empty_hdr, if_neg (by simp)]
  rw [hNoINM, ifNoneMatch_empty_hdr, if_neg (by simp)]
  rw [hDir]
  simp only []
  rw [if_pos ⟨by trivial, by decide⟩]
  rw [hUuid]
  simp only []
  rw [if_pos hSlug, if_pos hPresent]

theorem handlePOST_slug_creates (cfg : ServerConfig) (ftype : String → String)
    (co : Collab) (req : Request) (resource res2 : PathInfo) (fs : FS) (u c : String)
    (hAcl : aclGate co resource.URI = none)
    (hNoIM : req.header "If-Match" = "")
    (hNoINM : req.header "If-None-Match" = "")
    (hDir : fs resource.File = some ⟨true, c⟩)
    (hUuid : co.uuid = some u)
    (hSlash : strEndsWith resource.Path "/" = true)
    (hSlug : req.header "Slug" ≠ "")
    (hLink : req.linkType ≠ "http://www.w3.org/ns/ldp#BasicContainer")
    (hAbsent : fs (resource.File ++ sanitizeSlug (req.header "Slug")) = none)
    (hPI2 : pathInfo cfg fs ftype
      (resource.Base ++ "/" ++ (resource.Path ++ sanitizeSlug (req.header "Slug"))) =
      .ok res2)
    (hRes2 : res2.File = resource.File ++ sanitizeSlug (req.header "Slug")) :
    handlePOST cfg ftype co req resource "" fs =
      (201, fsWrite fs (resource.File ++ sanitizeSlug (req.header "Slug")) req.body) := by
  unfold handlePOST
  rw [hAcl]
  simp only []
  rw [hNoIM, ifMatch_empty_hdr, if_neg (by simp)]
  rw [hNoINM, ifNoneMatch_empty_hdr, if_neg (by simp)]
  rw [hDir]
  simp only []
  rw [if_pos ⟨by trivial, by decide⟩]
  rw [hUuid]
  simp only []
  rw [if_pos hSlug, hAbsent]
  rw [if_neg (by simp)]
  simp only []
  rw [if_pos hSlash]
  rw [if_neg hLink]
  rw [hPI2]
  simp only []
  unfold postWrite
  rw [hRes2, hAbsent]
  simp only []
  rw [if_neg (by decide : ¬(mimeHasParser "" = true))]
  rw [if_pos (by simp)]

/-- Claim C10: POSTs to an existing container with a fixed non-empty
Slug allocate at most one 201: while the sanitized child slot is free
the request creates it at `container.File ++ slug` with the request
body (201 Created), and any request that finds the slot occupied is
answered 409 Conflict with the filesystem returned unchanged. -/
theorem ldp_slug_at_most_one_201 (cfg : ServerConfig) (ftype : String → String)
    (co : Collab) (req : Request) (fs : FS) (resource res2 : PathInfo)
    (ct u c : String)
    (hM : req.method = "POST")
    (hSys : strStartsWith req.urlPath ("/" ++ SystemPrefix) = false)
    (hPI : pathInfo cfg fs ftype req.baseURI = .ok resource)
    (hCT : req.header "Content-Type" = "")
    (hNeg : (if req.acceptNonStar then co.negotiated else some "text/turtle") = some ct)
    (hAcl : aclGate co resource.URI = none)
    (hNoIM : req.header "If-Match" = "")
    (hNoINM : req.header "If-None-Match" = "")
    (hDir : fs resource.File = some ⟨true, c⟩)
    (hUuid : co.uuid = some u)
    (hSlash : strEndsWith resource.Path "/" = true)
    (hSlug : req.header "Slug" ≠ "")
    (hLink : req.linkType ≠ "http://www.w3.org/ns/ldp#BasicContainer")
    (hPI2 : pathInfo cfg fs ftype
      (resource.Base ++ "/" ++ (resource.Path ++ sanitizeSlug (req.header "Slug"))) =
      .ok res2)
    (hRes2 : res2.File = resource.File ++ sanitizeSlug (req.header "Slug")) :
    (fs (resource.File ++ sanitizeSlug (req.header "Slug")) = none →
      handle cfg ftype co req fs =
        some (201, fsWrite fs (resource.File ++ sanitizeSlug (req.header "Slug"))
          req.body)) ∧
    (∀ (fs2 : FS) (c2 : String), pathInfo cfg fs2 ftype req.baseURI = .ok resource →
      fs2 resource.File = some ⟨true, c2⟩ →
      (fs2 (resource.File ++ sanitizeSlug (req.header "Slug"))).isSome = true →
      handle cfg ftype co req fs2 = some (409, fs2)) := by
  have hGate : unsupportedMediaType req.method (req.header "Content-Type") = false := by
    rw [hCT]; rfl
  have hdm : headSplit ';' (req.header "Content-Type") = "" := by
    rw [hCT]; rfl
  constructor
  · intro hAbsent
    rw [handle_reaches_method cfg ftype co req fs resource ct hSys hPI hGate hNeg, hM]
    show some (handlePOST cfg ftype co req resource
      (headSplit ';' (req.header "Content-Type")) fs) = _
    rw [hdm]
    rw [handlePOST_slug_creates cfg ftype co req resource res2 fs u c hAcl hNoIM hNoINM
      hDir hUuid hSlash hSlug hLink hAbsent hPI2 hRes2]
  · intro fs2 c2 hPI2b hDir2 hPresent
    rw [handle_reaches_method cfg ftype co req fs2 resource ct hSys hPI2b hGate hNeg, hM]
    show some (handlePOST cfg ftype co req resource
      (headSplit ';' (req.header "Content-Type")) fs2) = _
    rw [hdm]
    rw [handlePOST_slug_conflict cfg ftype co req resource fs2 u c2 hAcl hNoIM hNoINM
      hDir2 hUuid hSlug hPresent]

/-- Witness for C10: the first POST of slug `kid` to container `/c/`
creates `data/c/kid` with the request body and answers 201; repeating
it against the resulting filesystem answers 409 and changes nothing. -/
theorem ldp_slug_at_most_one_201_witness :
    (handle ⟨"data/", false⟩ (fun _ => "")
        ⟨(fun _ _ => "E"), none, some "0123456789ab", (fun _ _ _ => ""),
          (fun _ _ _ => none), (fun _ _ => none), (fun _ _ => ""), (fun _ _ => 200)⟩
        ⟨"POST", "http://h/c/", "/c/",
          (fun hd => if hd = "Slug" then "kid" else ""), false, "hello", "",
          false, []⟩
        (fun q => if q = "data/c/" then some ⟨true, ""⟩ else none) =
      some (201, fsWrite (fun q => if q = "data/c/" then some ⟨true, ""⟩ else none)
        "data/c/kid" "hello")) ∧
    (handle ⟨"data/", false⟩ (fun _ => "")
        ⟨(fun _ _ => "E"), none, some "0123456789ab", (fun _ _ _ => ""),
          (fun _ _ _ => none), (fun _ _ => none), (fun _ _ => ""), (fun _ _ => 200)⟩
        ⟨"POST", "http://h/c/", "/c/",
          (fun hd => if hd = "Slug" then "kid" else ""), false, "hello", "",
          false, []⟩
        (fsWrite (fun q => if q = "data/c/" then some ⟨true, ""⟩ else none)
          "data/c/kid" "hello") =
      some (409, fsWrite (fun q => if q = "data/c/" then some ⟨true, ""⟩ else none)
        "data/c/kid" "hello")) := by
  have h := ldp_slug_at_most_one_201 ⟨"data/", false⟩ (fun _ => "")
    ⟨(fun _ _ => "E"), none, some "0123456789ab", (fun _ _ _ => ""),
      (fun _ _ _ => none), (fun _ _ => none), (fun _ _ => ""), (fun _ _ => 200)⟩
    ⟨"POST", "http://h/c/", "/c/",
      (fun hd => if hd = "Slug" then "kid" else ""), false, "hello", "",
      false, []⟩
    (fun q => if q = "data/c/" then some ⟨true, ""⟩ else none)
    ⟨⟨"http", "h", "c/"⟩, "http://h/c/", "http://h", "c/", "data/", "data/c/", "",
      "http://h/c/.acl", "data/c/.acl", "http://h/c/.meta", "data/c/.meta", true⟩
    ⟨⟨"http", "h", "c/kid"⟩, "http://h/c/kid", "http://h", "c/kid", "data/",
      "data/c/kid", "", "http://h/c/kid.acl", "data/c/kid.acl",
      "http://h/c/kid.meta", "data/c/kid.meta", false⟩
    "text/turtle" "0123456789ab" ""
    rfl (by decide) (by rfl) (by decide) rfl (by rfl) (by decide) (by decide)
    (by decide) rfl (by decide) (by decide) (by decide) (by rfl) (by decide)
  exact ⟨h.1 (by decide), h.2 _ "" (by rfl) (by decide) (by decide)⟩

/-! ### Claim C7 (415 Unsupported Media Type gate) -/

/-- Counterexample for claim C7: a GET — not a mutating method — with
an unparseable media type is rejected 415; the gate never tests whether
the method mutates, only that it is none of PUT, HEAD, OPTIONS. -/
theorem unsupported_media_type_cex :
    (handle ⟨"data/", false⟩ (fun _ => "")
      ⟨(fun _ _ => ""), none, none, (fun _ _ _ => ""), (fun _ _ _ => none),
        (fun _ _ => none), (fun _ _ => ""), (fun _ _ => 200)⟩
      ⟨"GET", "http://h/f", "/f",
        (fun hd => if hd = "Content-Type" then "image/png" else ""), false, "", "",
        false, []⟩
      (fun _ => none) =
      some (415, (fun _ => none))) ∧
    "GET" ∉ mutatingMethods := by
  constructor
  · rfl
  · decide

/-- Claim C7 (amended): the 415 rejection fires iff the media type (the
Content-Type value before any `;`) is non-empty, has no registered
parser and is not `multipart/form-data`, and the method is none of PUT,
HEAD, OPTIONS — with no requirement that the method be mutating.  The
second conjunct states that the modelled pipeline answers 415 exactly
when the gate fires (given that the ACL collaborator never reports
415, which `wacAllow` cannot). -/
theorem unsupported_media_type_iff (cfg : ServerConfig) (ftype : String → String)
    (co : Collab) (req : Request) (fs : FS)
    (hAcl : ∀ m u, co.aclCheck m u ≠ 415) :
    (unsupportedMediaType req.method (req.header "Content-Type") = true ↔
      (headSplit ';' (req.header "Content-Type") ≠ "" ∧
       mimeHasParser (headSplit ';' (req.header "Content-Type")) = false ∧
       headSplit ';' (req.header "Content-Type") ≠ "multipart/form-data" ∧
       req.method ≠ "PUT" ∧ req.method ≠ "HEAD" ∧ req.method ≠ "OPTIONS")) ∧
    (∀ st fs2, handle cfg ftype co req fs = some (st, fs2) →
      (st = 415 ↔
        unsupportedMediaType req.method (req.header "Content-Type") = true)) := by
  constructor
  · unfold unsupportedMediaType
    simp only [Bool.and_eq_true, decide_eq_true_eq, Bool.not_eq_true']
    tauto
  · intro st fs2 h
    unfold handle at h
    split at h
    · exact absurd h (by simp)
    · split at h
      · exact absurd h (by simp)
      · split at h
        next hg =>
          simp only [Option.some.injEq, Prod.mk.injEq] at h
          exact ⟨fun _ => hg, fun _ => h.1.symm⟩
        next hg =>
          have hne : st ≠ 415 := by
            split at h
            · simp only [Option.some.injEq, Prod.mk.injEq] at h
              omega
            · split at h
              · simp only [Option.some.injEq] at h
                intro hc
                exact handlePATCH_not_415 co req _ _ fs hAcl (by rw [h]; exact hc)
              · simp only [Option.some.injEq] at h
                intro hc
                exact handlePOST_not_415 cfg ftype co req _ _ fs hAcl (by rw [h]; exact hc)
              · simp only [Option.some.injEq] at h
                intro hc
                exact handlePUT_not_415 cfg ftype co req _ _ fs hAcl (by rw [h]; exact hc)
              · exact absurd h (by simp)
          exact ⟨fun h415 => absurd h415 hne, fun hgt => absurd hgt hg⟩

/-- Witness for the amended C7: a DELETE with `Content-Type:
application/zip; q=1` trips the gate. -/
theorem unsupported_media_type_iff_witness :
    unsupportedMediaType "DELETE" "application/zip; q=1" = true := by
  have h := (unsupported_media_type_iff ⟨"data/", false⟩ (fun _ => "")
    ⟨(fun _ _ => ""), none, none, (fun _ _ _ => ""), (fun _ _ _ => none),
      (fun _ _ => none), (fun _ _ => ""), (fun _ _ => 200)⟩
    ⟨"DELETE", "http://h/f", "/f",
      (fun hd => if hd = "Content-Type" then "application/zip; q=1" else ""), false, "",
      "", false, []⟩
    (fun _ => none) (fun _ _ => by simp)).1
  exact h.mpr (by decide)

end Gold
